import Mathlib

/-! Verification of the agent memory system core against its specification.

The definitions below are a shallow embedding of the Python source:
the memory lifecycle model (`core/memory/memory_types.py`), the memory
manager (`core/memory/memory_manager.py`), the storage layer
(`core/storage/vector_store.py`, `graph_store.py`, `cache_store.py`),
and the retrieval engines (`core/memory/memory_retrieval.py`,
`core/retrieval/retrieval_engine.py`, `core/retrieval/memory_retrieval.py`).
Machine reals are modelled by `ℚ`, timestamps by seconds since an
arbitrary epoch, dictionaries and stores by association lists, and
fallible calls by `Except`/`Option`.  The theorems named `c1_...` to
`c10_...` settle the specification claims C1 to C10. -/

namespace AgentMemory

/-- The four memory categories (`MemoryType` in `models/memory_model.py`). -/
inductive MemoryType where
  | short_term
  | long_term
  | working
  | skill
deriving DecidableEq, Repr

/-- Python `round`: round half to even, as applied by every
`calculate_importance` implementation in `memory_types.py`. -/
def pyRound (q : ℚ) : ℤ :=
  let f : ℤ := ⌊q⌋
  let r : ℚ := q - (f : ℚ)
  if r < 1 / 2 then f
  else if 1 / 2 < r then f + 1
  else if f % 2 = 0 then f else f + 1

/-- Python `int(...)` applied to a rational: truncation toward zero
(`_get_cache_ttl` returns `int(...)`). -/
def pyInt (q : ℚ) : ℤ :=
  if 0 ≤ q then ⌊q⌋ else -⌊-q⌋

/-- The fields of a `Memory` that the lifecycle model reads.  Timestamps
(`created_at`, `accessed_at`) are seconds; ages are computed against an
explicit `now` standing for `datetime.utcnow()`. -/
structure LMem where
  importance : ℤ
  access_count : ℕ
  relations_count : ℕ
  content_length : ℕ
  created_at : ℚ
  accessed_at : ℚ
  memory_type : MemoryType
deriving DecidableEq, Repr

/-- `ShortTermMemoryHandler.calculate_importance`: base importance plus
`min(access_count/5, 2)` plus `min(len(relations)/3, 2)` minus
`min(age_hours, 2)`, rounded and clamped by `max(1, min(10, round(x)))`. -/
def short_term_calculate_importance (m : LMem) (now : ℚ) : ℤ :=
  let importance : ℚ := (m.importance : ℚ)
  let access_bonus : ℚ := min ((m.access_count : ℚ) / 5) 2
  let relation_bonus : ℚ := min ((m.relations_count : ℚ) / 3) 2
  let decay : ℚ := min ((now - m.created_at) / 3600) 2
  max 1 (min 10 (pyRound (importance + access_bonus + relation_bonus - decay)))

/-- `LongTermMemoryHandler.calculate_importance`: base plus
`min(len(relations)/2, 3)` plus `min(access_count/10, 2)` minus
`min(age_seconds/(30*24*3600), 1)`, clamped by `max(5, min(10, round(x)))`. -/
def long_term_calculate_importance (m : LMem) (now : ℚ) : ℤ :=
  let importance : ℚ := (m.importance : ℚ)
  let relation_bonus : ℚ := min ((m.relations_count : ℚ) / 2) 3
  let access_value : ℚ := min ((m.access_count : ℚ) / 10) 2
  let time_decay : ℚ := min ((now - m.created_at) / (30 * 24 * 3600)) 1
  max 5 (min 10 (pyRound (importance + relation_bonus + access_value - time_decay)))

/-- `WorkingMemoryHandler.calculate_importance`: base plus
`min(access_count, 3)` minus `min(age_seconds/300, 3)`, clamped by
`max(1, min(10, round(x)))`. -/
def working_calculate_importance (m : LMem) (now : ℚ) : ℤ :=
  let importance : ℚ := (m.importance : ℚ)
  let access_bonus : ℚ := min (m.access_count : ℚ) 3
  let decay : ℚ := min ((now - m.created_at) / 300) 3
  max 1 (min 10 (pyRound (importance + access_bonus - decay)))

/-- `SkillMemoryHandler.calculate_importance`: base plus
`min(access_count/20, 4)` plus `min(len(relations)/2, 3)` plus
`min(len(content)/500, 3)`, clamped by `max(1, min(10, round(x)))`;
skill importance has no time decay. -/
def skill_calculate_importance (m : LMem) (_now : ℚ) : ℤ :=
  let importance : ℚ := (m.importance : ℚ)
  let usage_value : ℚ := min ((m.access_count : ℚ) / 20) 4
  let dependency_value : ℚ := min ((m.relations_count : ℚ) / 2) 3
  let completeness : ℚ := min ((m.content_length : ℚ) / 500) 3
  max 1 (min 10 (pyRound (importance + usage_value + dependency_value + completeness)))

/-- `MemoryTypeRegistry` dispatch of `calculate_importance` on the
memory's category. -/
def calculate_importance (m : LMem) (now : ℚ) : ℤ :=
  match m.memory_type with
  | MemoryType.short_term => short_term_calculate_importance m now
  | MemoryType.long_term => long_term_calculate_importance m now
  | MemoryType.working => working_calculate_importance m now
  | MemoryType.skill => skill_calculate_importance m now

/-- `ShortTermMemoryHandler.should_forget`: age over 24 hours, importance
below 3, idle over 12 hours, or no relations. -/
def short_term_should_forget (m : LMem) (now : ℚ) : Bool :=
  if 86400 < now - m.created_at then true
  else if m.importance < 3 then true
  else if 43200 < now - m.accessed_at then true
  else if m.relations_count = 0 then true
  else false

/-- `LongTermMemoryHandler.should_forget`: importance below 5, idle over
90 days, or fewer than 2 relations. -/
def long_term_should_forget (m : LMem) (now : ℚ) : Bool :=
  if m.importance < 5 then true
  else if 7776000 < now - m.accessed_at then true
  else if m.relations_count < 2 then true
  else false

/-- `WorkingMemoryHandler.should_forget`: age over 1 hour, importance
below 2, or idle over 30 minutes. -/
def working_should_forget (m : LMem) (now : ℚ) : Bool :=
  if 3600 < now - m.created_at then true
  else if m.importance < 2 then true
  else if 1800 < now - m.accessed_at then true
  else false

/-- `SkillMemoryHandler.should_forget`: idle over 365 days or importance
below 3. -/
def skill_should_forget (m : LMem) (now : ℚ) : Bool :=
  if 31536000 < now - m.accessed_at then true
  else if m.importance < 3 then true
  else false

/-- `MemoryTypeRegistry` dispatch of `should_forget`. -/
def should_forget (m : LMem) (now : ℚ) : Bool :=
  match m.memory_type with
  | MemoryType.short_term => short_term_should_forget m now
  | MemoryType.long_term => long_term_should_forget m now
  | MemoryType.working => working_should_forget m now
  | MemoryType.skill => skill_should_forget m now

/-- `ShortTermMemoryHandler.optimize`: recompute importance; promote to
long-term when the new importance reaches 7. -/
def short_term_optimize (m : LMem) (now : ℚ) : LMem :=
  let imp := short_term_calculate_importance m now
  { m with
    importance := imp
    memory_type := if 7 ≤ imp then MemoryType.long_term else m.memory_type }

/-- `LongTermMemoryHandler.optimize`: recompute importance; demote to
short-term when the new importance drops below 5. -/
def long_term_optimize (m : LMem) (now : ℚ) : LMem :=
  let imp := long_term_calculate_importance m now
  { m with
    importance := imp
    memory_type := if imp < 5 then MemoryType.short_term else m.memory_type }

/-- `WorkingMemoryHandler.optimize`: recompute importance; promote to
long-term at 7 or more, otherwise demote to short-term at 4 or more. -/
def working_optimize (m : LMem) (now : ℚ) : LMem :=
  let imp := working_calculate_importance m now
  { m with
    importance := imp
    memory_type :=
      if 7 ≤ imp then MemoryType.long_term
      else if 4 ≤ imp then MemoryType.short_term
      else m.memory_type }

/-- `SkillMemoryHandler.optimize`: recompute importance; the category is
never changed. -/
def skill_optimize (m : LMem) (now : ℚ) : LMem :=
  { m with importance := skill_calculate_importance m now }

/-- `MemoryTypeRegistry` dispatch of `optimize`. -/
def optimize (m : LMem) (now : ℚ) : LMem :=
  match m.memory_type with
  | MemoryType.short_term => short_term_optimize m now
  | MemoryType.long_term => long_term_optimize m now
  | MemoryType.working => working_optimize m now
  | MemoryType.skill => skill_optimize m now

/-- The category rewrite described by claim C5, written from the claim
text (not from the source): recomputed importance at least 7 promotes
short-term and working to long-term; below 5 demotes long-term to
short-term; between 4 and 6 demotes working to short-term; otherwise the
category is unchanged. -/
def claim_optimize_category (t : MemoryType) (imp : ℤ) : MemoryType :=
  match t with
  | MemoryType.short_term =>
      if 7 ≤ imp then MemoryType.long_term else MemoryType.short_term
  | MemoryType.long_term =>
      if imp < 5 then MemoryType.short_term else MemoryType.long_term
  | MemoryType.working =>
      if 7 ≤ imp then MemoryType.long_term
      else if 4 ≤ imp ∧ imp ≤ 6 then MemoryType.short_term
      else MemoryType.working
  | MemoryType.skill => MemoryType.skill

/-- `MemoryManager._get_cache_ttl`: base TTL 3600 s, importance factor
`importance/5` (no clamping in the code, despite the inline comment
claiming the range 1-2), access factor `min(access_count/10 + 1, 2)`. -/
def get_cache_ttl (importance : ℤ) (access_count : ℕ) : ℤ :=
  let base_ttl : ℚ := 3600
  let importance_factor : ℚ := (importance : ℚ) / 5
  let access_factor : ℚ := min ((access_count : ℚ) / 10 + 1) 2
  pyInt (base_ttl * importance_factor * access_factor)

/-- Source tag of a retrieval result (`source` attribute set by
`MemoryRetrieval._vector_retrieval` and `_graph_retrieval`). -/
inductive RSource where
  | vector
  | graph
deriving DecidableEq, Repr

/-- A retrieval result narrowed to the fields the merge logic reads:
memory id, similarity score (`similarity` in `memory_retrieval.py`,
`score` in `retrieval_engine.py`), and source tag. -/
structure RRes where
  memory_id : ℕ
  score : ℚ
  source : RSource
deriving DecidableEq, Repr

/-- One step of the deduplication loop of `_merge_results`: locate the
entry with the same memory id (the Python dict lookup, with dict
insertion order preserving the first occurrence) and combine with `c`,
else append at the end. -/
def insertWith (c : RRes → RRes → RRes) : List RRes → RRes → List RRes
  | [], r => [r]
  | x :: xs, r =>
    if x.memory_id = r.memory_id then c x r :: xs
    else x :: insertWith c xs r

/-- The deduplication loop (`for result in results:` over the dict). -/
def dedupWith (c : RRes → RRes → RRes) (l : List RRes) : List RRes :=
  l.foldl (insertWith c) []

/-- `MemoryRetrieval._merge_results` combine: keep the stored result
unless the new one has a strictly higher similarity. -/
def keep_higher (x r : RRes) : RRes := if x.score < r.score then r else x

/-- `RetrievalEngine._merge_results` combine: keep the stored result but
raise its score to the maximum of the two. -/
def max_score (x r : RRes) : RRes := { x with score := max x.score r.score }

/-- Insertion step of a stable descending sort keyed by `f`. -/
def insertDescBy (f : α → ℚ) (r : α) : List α → List α
  | [] => [r]
  | x :: xs => if f x < f r then r :: x :: xs else x :: insertDescBy f r xs

/-- Stable descending sort keyed by `f`; extensionally the Python stable
`sorted(..., key=..., reverse=True)`. -/
def sortDescBy (f : α → ℚ) (l : List α) : List α :=
  l.foldl (fun acc r => insertDescBy f r acc) []

/-- `MemoryRetrieval._merge_results` (`core/memory/memory_retrieval.py`):
deduplicate by memory id keeping the strictly higher similarity, then
sort by similarity descending. -/
def merge_results (l : List RRes) : List RRes :=
  sortDescBy RRes.score (dedupWith keep_higher l)

/-- `RetrievalEngine._merge_results` (`core/retrieval/retrieval_engine.py`):
deduplicate by memory id keeping the maximal score in the first
occurrence, then sort by score descending. -/
def merge_results_engine (l : List RRes) : List RRes :=
  sortDescBy RRes.score (dedupWith max_score l)

/-- The reweighting loop of `_hybrid_retrieval`: vector-sourced
similarities are multiplied by 0.7, graph-sourced ones by 0.3. -/
def reweight (r : RRes) : RRes :=
  match r.source with
  | RSource.vector => { r with score := r.score * (7 / 10) }
  | RSource.graph => { r with score := r.score * (3 / 10) }

/-- `MemoryRetrieval._hybrid_retrieval`: concatenate the vector and graph
sub-retrieval results, reweight by source, and merge. -/
def hybrid_retrieval (vector_results graph_results : List RRes) : List RRes :=
  merge_results ((vector_results ++ graph_results).map reweight)

/-- First result carrying the given memory id. -/
def find_result (id : ℕ) (l : List RRes) : Option RRes :=
  l.find? (fun r => r.memory_id = id)

/-- All scores a memory id carries in a candidate list, in order. -/
def scoresOf (id : ℕ) (l : List RRes) : List ℚ :=
  (l.filter (fun r => r.memory_id = id)).map RRes.score

/-- Running maximum step over an optional accumulator. -/
def maxStep (o : Option ℚ) (s : ℚ) : Option ℚ :=
  some (match o with | none => s | some t => max t s)

/-- Maximum of a list of scores, `none` for the empty list. -/
def maxScore (l : List ℚ) : Option ℚ := l.foldl maxStep none

/-- A combine function that keeps the memory id and takes the maximal
score — satisfied by both `_merge_results` variants. -/
def IdCombine (c : RRes → RRes → RRes) : Prop :=
  ∀ x r : RRes, x.memory_id = r.memory_id →
    (c x r).memory_id = x.memory_id ∧ (c x r).score = max x.score r.score

/-- The fields of a memory that `retrieve_by_importance`
(`core/retrieval/memory_retrieval.py`) reads. -/
structure ImpMem where
  id : ℕ
  importance : ℤ
deriving DecidableEq, Repr

/-- Python errors `retrieve_by_importance` can raise: `AttributeError`
from attribute dispatch on the graph store, `ZeroDivisionError` from the
score division. -/
inductive RetrievalPyErr where
  | attribute_error
  | zeroDivisionError
deriving DecidableEq, Repr

/-- The public methods the `GraphStore` class in
`core/storage/graph_store.py` defines (besides `__init__`/dunders and
`close`): node and relationship CRUD, traversal, and the two memory
queries `get_related_memories` and `get_memories_by_time`. -/
def graph_store_method_names : List String :=
  ["add_node", "get_node", "get_node_by_property", "update_node",
   "update_node_by_property", "delete_node", "delete_node_by_property",
   "add_relationship", "get_relationship", "update_relationship",
   "delete_relationship", "get_neighbors", "find_path", "clear",
   "get_related_memories", "get_memories_by_time"]

/-- Attribute dispatch of `get_memories_by_importance` on the graph
store, the first step of `MemoryRetrieval.retrieve_by_importance`
(`memory_retrieval.py:307`).  `GraphStore` defines no method of that
name, so the lookup raises `AttributeError`; the branch taken when such
a method exists models the importance-range query its name (and the
test `test_get_memories_by_importance`) promises, returning the
memories of the store whose importance lies in the range.  `memories`
is the store's content. -/
def graph_store_get_memories_by_importance (memories : List ImpMem)
    (min_importance max_importance : ℤ) :
    Except RetrievalPyErr (List ImpMem) :=
  if graph_store_method_names.contains "get_memories_by_importance" then
    Except.ok (memories.filter
      (fun m => min_importance ≤ m.importance ∧ m.importance ≤ max_importance))
  else Except.error RetrievalPyErr.attribute_error

/-- The scoring loop of `MemoryRetrieval.retrieve_by_importance`:
`score = (memory.importance - min_importance) / importance_range` with
`importance_range = max_importance - min_importance` and no guard
against a zero range. -/
def importance_scores : List ImpMem → ℤ → ℤ → Except RetrievalPyErr (List (ℕ × ℚ))
  | [], _, _ => Except.ok []
  | m :: rest, min_importance, max_importance =>
    let importance_range : ℤ := max_importance - min_importance
    if importance_range = 0 then Except.error RetrievalPyErr.zeroDivisionError
    else
      match importance_scores rest min_importance max_importance with
      | Except.error e => Except.error e
      | Except.ok tail =>
          Except.ok ((m.id,
            ((m.importance - min_importance : ℤ) : ℚ) /
              (importance_range : ℚ)) :: tail)

/-- `MemoryRetrieval.retrieve_by_importance`: first the graph-store query
`self.graph_store.get_memories_by_importance(...)` — whose attribute
dispatch fails — then the scoring loop over the returned memories, sort
by score descending, and the first `top_k`. -/
def retrieve_by_importance (graph_memories : List ImpMem)
    (min_importance max_importance : ℤ) (top_k : ℕ) :
    Except RetrievalPyErr (List (ℕ × ℚ)) :=
  match graph_store_get_memories_by_importance graph_memories
      min_importance max_importance with
  | Except.error e => Except.error e
  | Except.ok memories =>
    match importance_scores memories min_importance max_importance with
    | Except.error e => Except.error e
    | Except.ok results => Except.ok ((sortDescBy Prod.snd results).take top_k)

/-- The fields of a memory that the manager's store and delete paths
read: id, content, importance, and the optional embedding vector. -/
structure MemObj where
  id : String
  content : String
  importance : ℤ
  vector : Option (List ℚ)
deriving DecidableEq, Repr

/-- Association-list lookup keyed by id (Python dict lookup, store get). -/
def alookup (k : String) : List (String × α) → Option α
  | [] => none
  | (k2, v) :: rest => if k2 = k then some v else alookup k rest

/-- Removal of every binding of a key (dict `pop`, Cypher DETACH DELETE
by property, redis DEL). -/
def aerase (k : String) (l : List (String × α)) : List (String × α) :=
  l.filter (fun p => ¬ p.1 = k)

/-- Insert or overwrite a binding (dict assignment, node create,
redis SET). -/
def aset (k : String) (v : α) (l : List (String × α)) : List (String × α) :=
  (k, v) :: aerase k l

/-- Combined state of the four stores the manager writes: the vector
index, the graph store, the remote cache, and the process-local cache
dict `self._cache`. -/
structure StoreState where
  vector_store : List (String × List ℚ)
  graph_store : List (String × MemObj)
  cache_store : List (String × MemObj)
  local_cache : List (String × MemObj)
deriving DecidableEq, Repr

/-- `TransactionError`: raised when a transaction body or commit fails,
and when a transaction is entered while one is already active. -/
inductive TxError where
  | transaction_failed
  | nested_transaction
deriving DecidableEq, Repr

/-- Observable events of a soft-transaction commit: the three store
writes and their compensating deletes. -/
inductive TxEvent where
  | write_vector
  | write_node
  | write_cache
  | rb_vector
  | rb_node
  | rb_cache
deriving DecidableEq, Repr

/-- A registered transaction operation: the write (`operation()`, `none`
models a raised exception that leaves the store unchanged), the
compensating rollback attached at registration time
(`operation.rollback = rollback` in `_add_transaction_operation`), and
the trace events. -/
structure TxOp where
  run : StoreState → Option StoreState
  rollback : StoreState → StoreState
  write_event : TxEvent
  rollback_event : TxEvent

/-- The commit loop `for operation in self._local.transaction_operations:
operation()`: runs the writes in registration order and stops at the
first failure. -/
def run_operations : List TxOp → StoreState → StoreState × Bool × List TxEvent
  | [], s => (s, true, [])
  | op :: rest, s =>
    match op.run s with
    | some s2 =>
      let r := run_operations rest s2
      (r.1, r.2.1, op.write_event :: r.2.2)
    | none => (s, false, [])

/-- The rollback loop `for operation in reversed(...): operation.rollback()`:
every registered compensation runs, in reverse registration order
(rollback failures are swallowed in the source; compensating deletes
here are total). -/
def run_rollbacks (ops : List TxOp) (s : StoreState) : StoreState × List TxEvent :=
  (ops.reverse).foldl
    (fun (p : StoreState × List TxEvent) op =>
      (op.rollback p.1, p.2 ++ [op.rollback_event]))
    (s, [])

/-- `MemoryManager.transaction` commit/rollback: on a failed write, run
all compensations in reverse order and re-raise as `TransactionError`. -/
def transaction_commit (ops : List TxOp) (s : StoreState) :
    StoreState × Option TxError × List TxEvent :=
  let r := run_operations ops s
  if r.2.1 then (r.1, none, r.2.2)
  else
    let rb := run_rollbacks ops r.1
    (rb.1, some TxError.transaction_failed, r.2.2 ++ rb.2)

/-- `store_vector` step of `store_memory`: adds the embedding to the
vector index when the memory has one. -/
def store_vector (m : MemObj) (s : StoreState) : StoreState :=
  match m.vector with
  | some v => { s with vector_store := aset m.id v s.vector_store }
  | none => s

/-- `store_node` step of `store_memory`: adds the memory node to the
graph store keyed by the id property. -/
def store_node (m : MemObj) (s : StoreState) : StoreState :=
  { s with graph_store := aset m.id m s.graph_store }

/-- `store_cache` step of `store_memory`: writes the memory to the remote
cache and to the process-local cache dict. -/
def store_cache (m : MemObj) (s : StoreState) : StoreState :=
  { s with
    cache_store := aset m.id m s.cache_store
    local_cache := aset m.id m s.local_cache }

/-- Compensation of `store_vector`: `self._vector_store.delete(id)`. -/
def rollback_vector (id : String) (s : StoreState) : StoreState :=
  { s with vector_store := aerase id s.vector_store }

/-- Compensation of `store_node`:
`self._graph_store.delete_node_by_property("id", id)`. -/
def rollback_node (id : String) (s : StoreState) : StoreState :=
  { s with graph_store := aerase id s.graph_store }

/-- Compensation of `store_cache`: `self._cache_store.delete(id)` and
`self._cache.pop(id, None)`. -/
def rollback_cache (id : String) (s : StoreState) : StoreState :=
  { s with
    cache_store := aerase id s.cache_store
    local_cache := aerase id s.local_cache }

/-- The three operations `store_memory` registers, in registration order
vector index, graph store, cache, each paired with its compensating
delete before execution.  `fail = some k` injects a failure into the
k-th write (the store raises; no partial mutation). -/
def store_memory_operations (m : MemObj) (fail : Option (Fin 3)) : List TxOp :=
  [ { run := fun s => if fail = some 0 then none else some (store_vector m s)
      rollback := rollback_vector m.id
      write_event := TxEvent.write_vector
      rollback_event := TxEvent.rb_vector },
    { run := fun s => if fail = some 1 then none else some (store_node m s)
      rollback := rollback_node m.id
      write_event := TxEvent.write_node
      rollback_event := TxEvent.rb_node },
    { run := fun s => if fail = some 2 then none else some (store_cache m s)
      rollback := rollback_cache m.id
      write_event := TxEvent.write_cache
      rollback_event := TxEvent.rb_cache } ]

/-- `store_memory` executed inside `with manager.transaction():` — the
three writes are registered and then committed in order at context
exit. -/
def store_memory_in_transaction (m : MemObj) (fail : Option (Fin 3))
    (s : StoreState) : StoreState × Option TxError × List TxEvent :=
  transaction_commit (store_memory_operations m fail) s

/-- `MemoryManager.retrieve_memory` lookup chain: process-local cache,
then remote cache, then graph store; `None` (NotFound) when absent
everywhere.  Access bookkeeping and cache backfill do not affect the
returned value and are omitted here. -/
def retrieve_memory_lookup (id : String) (s : StoreState) : Option MemObj :=
  match alookup id s.local_cache with
  | some m => some m
  | none =>
    match alookup id s.cache_store with
    | some m => some m
    | none =>
      match alookup id s.graph_store with
      | some m => some m
      | none => none

/-- The compensating delete registered for each write event. -/
def compensation_of : TxEvent → TxEvent
  | TxEvent.write_vector => TxEvent.rb_vector
  | TxEvent.write_node => TxEvent.rb_node
  | TxEvent.write_cache => TxEvent.rb_cache
  | e => e

/-- The thread-local transaction state of the manager:
`self._local.in_transaction` and the number of registered operations in
`self._local.transaction_operations`. -/
structure TxLocal where
  in_transaction : Bool
  transaction_operations : ℕ
deriving DecidableEq, Repr

/-- Entry into `MemoryManager.transaction`: raises `TransactionError`
immediately when a transaction is already active, before any state is
touched; otherwise activates a fresh transaction with an empty
operation list. -/
def transaction_enter (t : TxLocal) : Except TxError TxLocal :=
  if t.in_transaction then Except.error TxError.nested_transaction
  else Except.ok { in_transaction := true, transaction_operations := 0 }

/-- A nested entry attempt observed from the outer transaction: the
resulting thread-local state and whether an error was raised. -/
def attempt_nested_transaction (t : TxLocal) : TxLocal × Option TxError :=
  match transaction_enter t with
  | Except.error e => (t, some e)
  | Except.ok t2 => (t2, none)

/-- The public and private methods the `VectorStore` class in
`core/storage/vector_store.py` defines (besides `__init__`/dunders):
`add`, `search`, `delete`, `update`, `get`, `clear`, `add_batch`,
`search_batch`, `optimize` (plus private index helpers). -/
def vector_store_method_names : List String :=
  ["add", "search", "delete", "update", "get", "clear", "add_batch",
   "search_batch", "optimize"]

/-- Python `AttributeError`. -/
inductive PyAttrErr where
  | attribute_error
deriving DecidableEq, Repr

/-- Attribute dispatch of `delete_vector` on the vector store, as invoked
by `MemoryManager.delete_memory`.  `VectorStore` defines no method of
that name, so the lookup raises `AttributeError`; the branch taken when
such a method exists mirrors `VectorStore.delete`, the deletion method
the class does define (which reports false when the id is absent). -/
def vector_store_delete_vector (id : String) (vs : List (String × List ℚ)) :
    Except PyAttrErr (List (String × List ℚ) × Bool) :=
  if vector_store_method_names.contains "delete_vector" then
    Except.ok (aerase id vs, (alookup id vs).isSome)
  else Except.error PyAttrErr.attribute_error

/-- `GraphStore.delete_node_by_property`: the Cypher DETACH DELETE query
succeeds whether or not a node matches, so it reports true (false only
on a store error, not modelled). -/
def graph_delete_node_by_property (id : String) (s : StoreState) :
    StoreState × Bool :=
  ({ s with graph_store := aerase id s.graph_store }, true)

/-- `CacheStore.delete`: redis DEL returns the number of removed keys;
`bool(...)` of that is whether the key was present. -/
def cache_store_delete (id : String) (s : StoreState) : StoreState × Bool :=
  ({ s with cache_store := aerase id s.cache_store },
   (alookup id s.cache_store).isSome)

/-- `MemoryManager.delete_memory`: pops the memory from the local cache;
only when the popped memory exists and has a vector does it attempt the
vector-index removal — through the undefined `delete_vector` attribute —
then deletes from graph store and cache, returning the conjunction of
the reported results. -/
def delete_memory (id : String) (s : StoreState) :
    Except PyAttrErr (StoreState × Bool) :=
  let mOpt := alookup id s.local_cache
  let s1 : StoreState := { s with local_cache := aerase id s.local_cache }
  match mOpt with
  | some m =>
    if m.vector.isSome then
      match vector_store_delete_vector id s1.vector_store with
      | Except.error e => Except.error e
      | Except.ok (vs2, okv) =>
        let s2 := { s1 with vector_store := vs2 }
        let r3 := graph_delete_node_by_property id s2
        let r4 := cache_store_delete id r3.1
        Except.ok (r4.1, okv && r3.2 && r4.2)
    else
      let r3 := graph_delete_node_by_property id s1
      let r4 := cache_store_delete id r3.1
      Except.ok (r4.1, r3.2 && r4.2)
  | none =>
    let r3 := graph_delete_node_by_property id s1
    let r4 := cache_store_delete id r3.1
    Except.ok (r4.1, r3.2 && r4.2)

/-- Both bounds of the clamp pattern `max lo (min 10 x)` used by every
`calculate_importance` implementation. -/
lemma clamp_bounds (lo x : ℤ) (h1 : 1 ≤ lo) (h2 : lo ≤ 10) :
    1 ≤ max lo (min 10 x) ∧ max lo (min 10 x) ≤ 10 :=
  ⟨le_trans h1 (le_max_left _ _), max_le h2 (min_le_left _ _)⟩

lemma keep_higher_idCombine : IdCombine keep_higher := by
  intro x r h
  unfold keep_higher
  split_ifs with hs
  · exact ⟨h.symm, (max_eq_right (le_of_lt hs)).symm⟩
  · exact ⟨rfl, (max_eq_left (not_lt.mp hs)).symm⟩

lemma max_score_idCombine : IdCombine max_score := by
  intro x r _
  exact ⟨rfl, rfl⟩

lemma find_result_insertWith {c : RRes → RRes → RRes} (hc : IdCombine c)
    (acc : List RRes) (r : RRes) (id : ℕ) :
    find_result id (insertWith c acc r) =
      if r.memory_id = id then
        match find_result id acc with
        | none => some r
        | some x => some (c x r)
      else find_result id acc := by
  induction acc with
  | nil =>
    by_cases h : r.memory_id = id <;> simp [insertWith, find_result, h]
  | cons x xs ih =>
    simp only [insertWith]
    by_cases hx : x.memory_id = r.memory_id
    · rw [if_pos hx]
      have hcx := (hc x r hx).1
      by_cases h : r.memory_id = id
      · have hxid : x.memory_id = id := hx.trans h
        simp [find_result, hcx, hxid, h]
      · have hxid : ¬ x.memory_id = id := fun hh => h (hx.symm.trans hh)
        have hcid : ¬ (c x r).memory_id = id := by rw [hcx]; exact hxid
        simp [find_result, hcid, hxid, h]
    · rw [if_neg hx]
      by_cases h : r.memory_id = id
      · have hxid : ¬ x.memory_id = id := fun hh => hx (hh.trans h.symm)
        simp [find_result, hxid, h] at ih ⊢
        rw [ih]
      · by_cases hxid : x.memory_id = id
        · simp [find_result, hxid, h]
        · simp [find_result, hxid, h] at ih ⊢
          rw [ih]

lemma find_score_insertWith {c : RRes → RRes → RRes} (hc : IdCombine c)
    (acc : List RRes) (r : RRes) (id : ℕ) :
    (find_result id (insertWith c acc r)).map RRes.score =
      if r.memory_id = id then
        maxStep ((find_result id acc).map RRes.score) r.score
      else (find_result id acc).map RRes.score := by
  rw [find_result_insertWith hc]
  by_cases h : r.memory_id = id
  · simp only [if_pos h]
    cases hf : find_result id acc with
    | none => simp [maxStep]
    | some x =>
      have hxr : x.memory_id = r.memory_id := by
        have hx : x.memory_id = id := by simpa using List.find?_some hf
        rw [hx, h]
      simp [maxStep, (hc x r hxr).2]
  · simp [if_neg h]

lemma find_score_foldl {c : RRes → RRes → RRes} (hc : IdCombine c)
    (l : List RRes) (acc : List RRes) (id : ℕ) :
    (find_result id (l.foldl (insertWith c) acc)).map RRes.score =
      (scoresOf id l).foldl maxStep ((find_result id acc).map RRes.score) := by
  induction l generalizing acc with
  | nil => simp [scoresOf]
  | cons r l ih =>
    rw [List.foldl_cons, ih]
    by_cases h : r.memory_id = id
    · have hs : scoresOf id (r :: l) = r.score :: scoresOf id l := by
        simp [scoresOf, h]
      rw [hs, List.foldl_cons, find_score_insertWith hc, if_pos h]
    · have hs : scoresOf id (r :: l) = scoresOf id l := by
        simp [scoresOf, h]
      rw [hs, find_score_insertWith hc, if_neg h]

lemma find_score_dedupWith {c : RRes → RRes → RRes} (hc : IdCombine c)
    (l : List RRes) (id : ℕ) :
    (find_result id (dedupWith c l)).map RRes.score = maxScore (scoresOf id l) := by
  have h := find_score_foldl hc l [] id
  simpa [dedupWith, find_result, maxScore] using h

lemma maxScore_cons_ne_none (s : ℚ) (l : List ℚ) :
    maxScore (s :: l) ≠ none := by
  have aux : ∀ (l : List ℚ) (t : ℚ), l.foldl maxStep (some t) ≠ none := by
    intro l
    induction l with
    | nil => intro t h; exact Option.noConfusion h
    | cons x xs ih => intro t; simpa [maxStep] using ih (max t x)
  simpa [maxScore, maxStep] using aux l s

lemma ids_insertWith {c : RRes → RRes → RRes} (hc : IdCombine c)
    (acc : List RRes) (r : RRes) :
    (insertWith c acc r).map RRes.memory_id =
      if r.memory_id ∈ acc.map RRes.memory_id then acc.map RRes.memory_id
      else acc.map RRes.memory_id ++ [r.memory_id] := by
  induction acc with
  | nil => simp [insertWith]
  | cons x xs ih =>
    by_cases hx : x.memory_id = r.memory_id
    · have hcx := (hc x r hx).1
      have hmem : r.memory_id ∈ (x :: xs).map RRes.memory_id := by
        simp [← hx]
      rw [if_pos hmem]
      simp only [insertWith, if_pos hx, List.map_cons, hcx]
    · have hne : ¬ r.memory_id = x.memory_id := fun hh => hx hh.symm
      by_cases hmem : r.memory_id ∈ xs.map RRes.memory_id
      · simp [insertWith, hx, ih, hmem, hne]
      · simp [insertWith, hx, ih, hmem, hne]

lemma nodup_ids_foldl {c : RRes → RRes → RRes} (hc : IdCombine c)
    (l : List RRes) (acc : List RRes)
    (h : (acc.map RRes.memory_id).Nodup) :
    ((l.foldl (insertWith c) acc).map RRes.memory_id).Nodup := by
  induction l generalizing acc with
  | nil => simpa using h
  | cons r l ih =>
    rw [List.foldl_cons]
    refine ih _ ?_
    rw [ids_insertWith hc]
    by_cases hmem : r.memory_id ∈ acc.map RRes.memory_id
    · simpa [hmem] using h
    · rw [if_neg hmem]
      refine List.Nodup.append h (List.nodup_singleton _) ?_
      intro b hb hb2
      rw [List.mem_singleton] at hb2
      exact hmem (hb2 ▸ hb)

lemma nodup_ids_dedupWith {c : RRes → RRes → RRes} (hc : IdCombine c)
    (l : List RRes) : ((dedupWith c l).map RRes.memory_id).Nodup :=
  nodup_ids_foldl hc l [] (by simp)

lemma filter_eq_find_of_nodup (l : List RRes) (id : ℕ)
    (h : (l.map RRes.memory_id).Nodup) :
    l.filter (fun r => r.memory_id = id) = (find_result id l).toList := by
  induction l with
  | nil => simp [find_result]
  | cons x xs ih =>
    rw [List.map_cons, List.nodup_cons] at h
    by_cases hx : x.memory_id = id
    · have hnil : xs.filter (fun r => r.memory_id = id) = [] := by
        refine List.filter_eq_nil_iff.mpr ?_
        intro a ha hmm
        have ha2 : a.memory_id = id := by simpa using hmm
        refine h.1 ?_
        rw [← ha2.trans hx.symm]
        exact List.mem_map_of_mem RRes.memory_id ha
      simp [List.filter, find_result, List.find?, hx, hnil]
    · simp [find_result, hx] at ih ⊢
      exact ih h.2

lemma insertDescBy_perm (f : α → ℚ) (r : α) (l : List α) :
    List.Perm (insertDescBy f r l) (r :: l) := by
  induction l with
  | nil => exact List.Perm.refl _
  | cons x xs ih =>
    by_cases hc : f x < f r
    · simp [insertDescBy, hc]
    · simp only [insertDescBy, if_neg hc]
      exact (ih.cons x).trans (List.Perm.swap r x xs)

lemma sortDescBy_perm (f : α → ℚ) (l : List α) : List.Perm (sortDescBy f l) l := by
  have aux : ∀ (l acc : List α),
      List.Perm (l.foldl (fun acc r => insertDescBy f r acc) acc) (acc ++ l) := by
    intro l
    induction l with
    | nil => simp
    | cons r l ih =>
      intro acc
      rw [List.foldl_cons]
      refine (ih _).trans ?_
      refine ((insertDescBy_perm f r acc).append_right l).trans ?_
      exact List.perm_middle.symm
  simpa [sortDescBy] using aux l []

lemma insertDescBy_pairwise (f : α → ℚ) (r : α) (l : List α)
    (h : l.Pairwise (fun a b => f b ≤ f a)) :
    (insertDescBy f r l).Pairwise (fun a b => f b ≤ f a) := by
  induction l with
  | nil => simp [insertDescBy]
  | cons x xs ih =>
    rw [List.pairwise_cons] at h
    by_cases hc : f x < f r
    · rw [insertDescBy, if_pos hc, List.pairwise_cons]
      refine ⟨?_, List.pairwise_cons.mpr h⟩
      intro y hy
      rcases List.mem_cons.mp hy with hy | hy
      · exact hy ▸ le_of_lt hc
      · exact le_trans (h.1 y hy) (le_of_lt hc)
    · rw [insertDescBy, if_neg hc, List.pairwise_cons]
      refine ⟨?_, ih h.2⟩
      intro y hy
      rcases List.mem_cons.mp ((insertDescBy_perm f r xs).mem_iff.mp hy) with hy | hy
      · exact hy ▸ not_lt.mp hc
      · exact h.1 y hy

lemma sortDescBy_pairwise (f : α → ℚ) (l : List α) :
    (sortDescBy f l).Pairwise (fun a b => f b ≤ f a) := by
  have aux : ∀ (l acc : List α), acc.Pairwise (fun a b => f b ≤ f a) →
      (l.foldl (fun acc r => insertDescBy f r acc) acc).Pairwise
        (fun a b => f b ≤ f a) := by
    intro l
    induction l with
    | nil => intro acc h; simpa using h
    | cons r l ih =>
      intro acc h
      rw [List.foldl_cons]
      exact ih _ (insertDescBy_pairwise f r acc h)
  exact aux l [] (by simp)

/-- The merge contract shared by both `_merge_results` implementations:
no duplicate ids, descending scores, and per id the maximal score over
all appearances. -/
lemma mergeWith_spec {c : RRes → RRes → RRes} (hc : IdCombine c)
    (l : List RRes) :
    (((sortDescBy RRes.score (dedupWith c l)).map RRes.memory_id).Nodup ∧
     (sortDescBy RRes.score (dedupWith c l)).Pairwise
       (fun a b => b.score ≤ a.score)) ∧
    ∀ id : ℕ, scoresOf id l ≠ [] →
      ∃ r : RRes,
        (sortDescBy RRes.score (dedupWith c l)).filter
          (fun x => x.memory_id = id) = [r] ∧
        some r.score = maxScore (scoresOf id l) ∧ r.memory_id = id := by
  have hperm := sortDescBy_perm RRes.score (dedupWith c l)
  have hnodup := nodup_ids_dedupWith hc l
  refine ⟨⟨?_, sortDescBy_pairwise _ _⟩, ?_⟩
  · exact ((hperm.map RRes.memory_id).nodup_iff).mpr hnodup
  · intro id hne
    have hscore := find_score_dedupWith hc l id
    cases hs : scoresOf id l with
    | nil => exact absurd hs hne
    | cons s rest =>
      rw [hs] at hscore
      cases hf : find_result id (dedupWith c l) with
      | none =>
        rw [hf] at hscore
        exact absurd hscore.symm (maxScore_cons_ne_none s rest)
      | some r =>
        refine ⟨r, ?_, ?_, ?_⟩
        · have hfilter := filter_eq_find_of_nodup (dedupWith c l) id hnodup
          rw [hf] at hfilter
          have hp : List.Perm ((sortDescBy RRes.score (dedupWith c l)).filter
              (fun x => x.memory_id = id)) [r] := by
            refine (hperm.filter _).trans ?_
            rw [hfilter]
            exact List.Perm.refl _
          exact List.perm_singleton.mp hp
        · rw [hf] at hscore
          simpa using hscore
        · simpa using List.find?_some hf

lemma reweight_memory_id (r : RRes) : (reweight r).memory_id = r.memory_id := by
  cases hsrc : r.source <;> simp [reweight, hsrc]

lemma filter_map_reweight (l : List RRes) (id : ℕ) :
    (l.map reweight).filter (fun r => r.memory_id = id) =
      (l.filter (fun r => r.memory_id = id)).map reweight := by
  induction l with
  | nil => rfl
  | cons x xs ih =>
    by_cases h : x.memory_id = id
    · simp [reweight_memory_id, h, ih]
    · simp [reweight_memory_id, h, ih]

lemma alookup_aerase (k : String) (l : List (String × α)) :
    alookup k (aerase k l) = none := by
  induction l with
  | nil => rfl
  | cons p rest ih =>
    by_cases h : p.1 = k
    · simpa [aerase, h] using ih
    · simpa [aerase, alookup, h] using ih

/-- C1: within `store_memory`'s soft transaction the three writes commit
in the fixed order vector index, graph store, cache; a failure of the
k-th write yields `TransactionError`, the compensating deletes of the
already-applied writes run in reverse order of application (as the final
run of the rollback segment of the trace), and a subsequent
`retrieve_memory` for the id finds nothing in any store. -/
theorem c1_transaction_rollback (m : MemObj) (s : StoreState) (k : Fin 3) :
    (store_memory_in_transaction m (some k) s).2.1 =
      some TxError.transaction_failed ∧
    retrieve_memory_lookup m.id (store_memory_in_transaction m (some k) s).1 =
      none ∧
    alookup m.id (store_memory_in_transaction m (some k) s).1.vector_store =
      none ∧
    (store_memory_in_transaction m (some k) s).2.2 =
      ([TxEvent.write_vector, TxEvent.write_node,
        TxEvent.write_cache].take k.val) ++
        [TxEvent.rb_cache, TxEvent.rb_node, TxEvent.rb_vector] ∧
    List.IsSuffix
      ((([TxEvent.write_vector, TxEvent.write_node,
        TxEvent.write_cache].take k.val).reverse).map compensation_of)
      [TxEvent.rb_cache, TxEvent.rb_node, TxEvent.rb_vector] ∧
    (store_memory_in_transaction m none s).2.2 =
      [TxEvent.write_vector, TxEvent.write_node, TxEvent.write_cache] := by
  fin_cases k <;>
    refine ⟨?_, ?_, ?_, ?_, ?_, ?_⟩ <;>
    simp [store_memory_in_transaction, transaction_commit, run_operations,
      run_rollbacks, store_memory_operations, store_vector, store_node,
      store_cache, rollback_vector, rollback_node, rollback_cache,
      retrieve_memory_lookup, alookup_aerase, compensation_of,
      List.IsSuffix]
  all_goals first
    | exact ⟨[TxEvent.rb_cache, TxEvent.rb_node], rfl⟩
    | exact ⟨[TxEvent.rb_cache], rfl⟩

/-- C2: when the same memory id is returned by the vector sub-retrieval
with score v and by the graph sub-retrieval with score g, the hybrid
merge carries exactly `max(0.7*v, 0.3*g)` for it — and, for positive
scores, never the sum of the two weighted scores. -/
theorem c2_hybrid_score_is_max (vres gres : List RRes) (id : ℕ) (rv rg : RRes)
    (hv : vres.filter (fun r => r.memory_id = id) = [rv])
    (hg : gres.filter (fun r => r.memory_id = id) = [rg])
    (hsv : ∀ r ∈ vres, r.source = RSource.vector)
    (hsg : ∀ r ∈ gres, r.source = RSource.graph) :
    ∃ u : RRes,
      (hybrid_retrieval vres gres).filter (fun x => x.memory_id = id) = [u] ∧
      u.memory_id = id ∧
      u.score = max (7 / 10 * rv.score) (3 / 10 * rg.score) ∧
      (0 < rv.score → 0 < rg.score →
        u.score ≠ 7 / 10 * rv.score + 3 / 10 * rg.score) := by
  have hrv_mem : rv ∈ vres :=
    List.mem_of_mem_filter (hv ▸ List.mem_singleton_self rv)
  have hrg_mem : rg ∈ gres :=
    List.mem_of_mem_filter (hg ▸ List.mem_singleton_self rg)
  have hrv_src := hsv rv hrv_mem
  have hrg_src := hsg rg hrg_mem
  have hsc : scoresOf id ((vres ++ gres).map reweight) =
      [rv.score * (7 / 10), rg.score * (3 / 10)] := by
    unfold scoresOf
    rw [List.map_append, List.filter_append, filter_map_reweight,
      filter_map_reweight, hv, hg]
    simp [reweight, hrv_src, hrg_src]
  obtain ⟨u, hu_f, hu_s, hu_id⟩ :=
    (mergeWith_spec keep_higher_idCombine ((vres ++ gres).map reweight)).2 id
      (by rw [hsc]; exact List.cons_ne_nil _ _)
  rw [hsc] at hu_s
  have hmax : maxScore [rv.score * (7 / 10), rg.score * (3 / 10)] =
      some (max (rv.score * (7 / 10)) (rg.score * (3 / 10))) := by
    simp [maxScore, maxStep]
  rw [hmax] at hu_s
  have hu_score : u.score = max (7 / 10 * rv.score) (3 / 10 * rg.score) := by
    have h := Option.some_injective _ hu_s
    rw [h, mul_comm rv.score (7 / 10 : ℚ), mul_comm rg.score (3 / 10 : ℚ)]
  refine ⟨u, ?_, hu_id, hu_score, ?_⟩
  · exact hu_f
  · intro h1 h2
    have ha : 0 < 7 / 10 * rv.score := mul_pos (by norm_num) h1
    have hb : 0 < 3 / 10 * rg.score := mul_pos (by norm_num) h2
    rw [hu_score]
    exact ne_of_lt (max_lt (lt_add_of_pos_right _ hb) (lt_add_of_pos_left _ ha))

/-- Witness for C2: one vector hit with score 2 and one graph hit with
score 3 for memory id 1 merge to the weighted maximum. -/
theorem c2_hybrid_score_is_max_witness :
    ∃ u : RRes,
      (hybrid_retrieval [⟨1, 2, RSource.vector⟩]
        [⟨1, 3, RSource.graph⟩]).filter (fun x => x.memory_id = 1) = [u] ∧
      u.memory_id = 1 ∧
      u.score = max (7 / 10 * 2) (3 / 10 * 3) ∧
      (0 < (2 : ℚ) → 0 < (3 : ℚ) →
        u.score ≠ 7 / 10 * 2 + 3 / 10 * 3) :=
  c2_hybrid_score_is_max [⟨1, 2, RSource.vector⟩] [⟨1, 3, RSource.graph⟩] 1
    ⟨1, 2, RSource.vector⟩ ⟨1, 3, RSource.graph⟩ (by simp) (by simp)
    (by simp) (by simp)

/-- C3 (code-bug evaluation): the cache-lifetime computation applies no
lower clamp to the importance factor `importance/5`, so importance 1 with
access count 0 yields a TTL of 720 seconds, below the claimed 3600-second
floor; the cap instance importance 10, access count 20 does yield exactly
14400 seconds. -/
theorem c3_cache_ttl_no_lower_clamp :
    get_cache_ttl 1 0 = 720 ∧ get_cache_ttl 10 20 = 14400 ∧
    get_cache_ttl 1 0 < 3600 := by
  refine ⟨?_, ?_, ?_⟩ <;> norm_num [get_cache_ttl, pyInt, min_def]

/-- C4: for every memory and each of the four category handlers
(short-term, long-term, working, skill), `calculate_importance` returns an
integer in [1, 10] regardless of the memory's stored importance, access
count, relation count, content length, or age. -/
theorem c4_calculate_importance_in_range (m : LMem) (now : ℚ) :
    (1 ≤ short_term_calculate_importance m now ∧
      short_term_calculate_importance m now ≤ 10) ∧
    (1 ≤ long_term_calculate_importance m now ∧
      long_term_calculate_importance m now ≤ 10) ∧
    (1 ≤ working_calculate_importance m now ∧
      working_calculate_importance m now ≤ 10) ∧
    (1 ≤ skill_calculate_importance m now ∧
      skill_calculate_importance m now ≤ 10) := by
  unfold short_term_calculate_importance long_term_calculate_importance
    working_calculate_importance skill_calculate_importance
  exact ⟨clamp_bounds 1 _ (by norm_num) (by norm_num),
    clamp_bounds 5 _ (by norm_num) (by norm_num),
    clamp_bounds 1 _ (by norm_num) (by norm_num),
    clamp_bounds 1 _ (by norm_num) (by norm_num)⟩

/-- C5: `optimize` first recomputes importance through the category's
handler and then rewrites the category exactly per the claimed
boundaries: at least 7 promotes short-term and working to long-term,
below 5 demotes long-term to short-term, 4 to 6 demotes working to
short-term, and in every other case the category is unchanged. -/
theorem c5_optimize_recomputes_and_rewrites_category (m : LMem) (now : ℚ) :
    (optimize m now).importance = calculate_importance m now ∧
    (optimize m now).memory_type =
      claim_optimize_category m.memory_type (calculate_importance m now) := by
  constructor
  · cases ht : m.memory_type <;>
      simp [optimize, calculate_importance, ht, short_term_optimize,
        long_term_optimize, working_optimize, skill_optimize]
  · cases ht : m.memory_type
    case short_term =>
      simp [optimize, calculate_importance, claim_optimize_category, ht,
        short_term_optimize]
    case long_term =>
      simp [optimize, calculate_importance, claim_optimize_category, ht,
        long_term_optimize]
    case working =>
      simp only [optimize, calculate_importance, claim_optimize_category, ht,
        working_optimize]
      split_ifs <;> first | rfl | (exfalso; omega)
    case skill =>
      simp [optimize, calculate_importance, claim_optimize_category, ht,
        skill_optimize]

/-- C6: both merge implementations return at most one entry per memory
id, an id appearing several times carries the maximal score over all its
appearances, and the returned list is sorted by score descending. -/
theorem c6_merge_dedup_max_sorted (l : List RRes) :
    ((((merge_results l).map RRes.memory_id).Nodup ∧
      (merge_results l).Pairwise (fun a b => b.score ≤ a.score)) ∧
     ∀ id : ℕ, scoresOf id l ≠ [] →
       ∃ r : RRes,
         (merge_results l).filter (fun x => x.memory_id = id) = [r] ∧
         some r.score = maxScore (scoresOf id l) ∧ r.memory_id = id) ∧
    ((((merge_results_engine l).map RRes.memory_id).Nodup ∧
      (merge_results_engine l).Pairwise (fun a b => b.score ≤ a.score)) ∧
     ∀ id : ℕ, scoresOf id l ≠ [] →
       ∃ r : RRes,
         (merge_results_engine l).filter (fun x => x.memory_id = id) = [r] ∧
         some r.score = maxScore (scoresOf id l) ∧ r.memory_id = id) :=
  ⟨mergeWith_spec keep_higher_idCombine l, mergeWith_spec max_score_idCombine l⟩

/-- Witness for C6: in a list where id 1 appears with scores 2 and 3 and
id 2 once, the merged entry for id 1 carries the maximal score. -/
theorem c6_merge_dedup_max_sorted_witness :
    ∃ r : RRes,
      (merge_results [⟨1, 2, RSource.vector⟩, ⟨1, 3, RSource.graph⟩,
        ⟨2, 1, RSource.vector⟩]).filter (fun x => x.memory_id = 1) = [r] ∧
      some r.score = maxScore (scoresOf 1 [⟨1, 2, RSource.vector⟩,
        ⟨1, 3, RSource.graph⟩, ⟨2, 1, RSource.vector⟩]) ∧
      r.memory_id = 1 :=
  (c6_merge_dedup_max_sorted [⟨1, 2, RSource.vector⟩, ⟨1, 3, RSource.graph⟩,
    ⟨2, 1, RSource.vector⟩]).1.2 1 (by simp [scoresOf])

/-- C7 (code-bug evaluation): when the memory popped from the local
cache has a vector, `delete_memory` dispatches the undefined
`delete_vector` attribute on the vector store and raises
`AttributeError` instead of removing the embedding and returning a bool;
when the memory is absent from the local cache the vector index is not
touched at all, even if it holds the id. -/
theorem c7_delete_memory_vector_branch (s s2 : StoreState) (id : String)
    (m : MemObj) :
    (alookup id s.local_cache = some m → m.vector.isSome = true →
      delete_memory id s = Except.error PyAttrErr.attribute_error) ∧
    (alookup id s2.local_cache = none →
      ∃ p, delete_memory id s2 = Except.ok p ∧
        p.1.vector_store = s2.vector_store) := by
  constructor
  · intro hm hv
    have hc : "delete_vector" ∉ vector_store_method_names := by decide
    simp [delete_memory, hm, hv, vector_store_delete_vector, hc]
  · intro hm
    refine ⟨(⟨s2.vector_store, aerase id s2.graph_store,
      aerase id s2.cache_store, aerase id s2.local_cache⟩,
      (alookup id s2.cache_store).isSome), ?_, rfl⟩
    simp [delete_memory, hm, graph_delete_node_by_property, cache_store_delete]

/-- Witness for C7: deleting a locally cached memory that has a vector
raises `AttributeError`; deleting an id absent from the local cache
leaves the vector store untouched. -/
theorem c7_delete_memory_vector_branch_witness :
    delete_memory "a"
      ⟨[("a", [])], [("a", ⟨"a", "", 5, some []⟩)],
        [("a", ⟨"a", "", 5, some []⟩)], [("a", ⟨"a", "", 5, some []⟩)]⟩ =
      Except.error PyAttrErr.attribute_error ∧
    ∃ p, delete_memory "a" ⟨[("a", [])], [], [], []⟩ = Except.ok p ∧
      p.1.vector_store = [("a", [])] := by
  constructor
  · exact (c7_delete_memory_vector_branch
      ⟨[("a", [])], [("a", ⟨"a", "", 5, some []⟩)],
        [("a", ⟨"a", "", 5, some []⟩)], [("a", ⟨"a", "", 5, some []⟩)]⟩
      ⟨[], [], [], []⟩ "a" ⟨"a", "", 5, some []⟩).1 (by simp [alookup]) rfl
  · exact (c7_delete_memory_vector_branch ⟨[], [], [], []⟩
      ⟨[("a", [])], [], [], []⟩ "a" ⟨"a", "", 5, some []⟩).2 rfl

/-- C8: for a working-category memory whose total age is at most one hour
and whose importance is at least 2, `should_forget` returns true exactly
when the idle time strictly exceeds 30 minutes (1800 seconds). -/
theorem c8_working_should_forget_boundary (m : LMem) (now : ℚ)
    (ht : m.memory_type = MemoryType.working)
    (h1 : now - m.created_at ≤ 3600) (h2 : 2 ≤ m.importance) :
    should_forget m now = true ↔ 1800 < now - m.accessed_at := by
  simp only [should_forget, ht, working_should_forget]
  rw [if_neg (not_lt.mpr h1), if_neg (not_lt.mpr h2)]
  split_ifs with h3 <;> simp [h3]

/-- Witness for C8: a working memory created and last accessed at time 0,
importance 5, is not forgotten at 29 minutes (1740 s) of idle time and is
forgotten at 31 minutes (1860 s). -/
theorem c8_working_should_forget_boundary_witness :
    should_forget ⟨5, 0, 0, 10, 0, 0, MemoryType.working⟩ 1740 = false ∧
    should_forget ⟨5, 0, 0, 10, 0, 0, MemoryType.working⟩ 1860 = true := by
  constructor
  · have h := c8_working_should_forget_boundary
      ⟨5, 0, 0, 10, 0, 0, MemoryType.working⟩ 1740 rfl (by norm_num) (by norm_num)
    have hne : ¬ should_forget ⟨5, 0, 0, 10, 0, 0, MemoryType.working⟩ 1740 = true := by
      intro hs
      have hgt := h.mp hs
      norm_num at hgt
    simpa using hne
  · exact (c8_working_should_forget_boundary
      ⟨5, 0, 0, 10, 0, 0, MemoryType.working⟩ 1860 rfl (by norm_num)
      (by norm_num)).mpr (by norm_num)

/-- C9: entering the transaction context while a transaction is already
active raises `TransactionError` at once; the outer thread-local state —
the active flag and the registered operations — is unchanged by the
rejected nesting attempt. -/
theorem c9_nested_transaction_rejected (t : TxLocal)
    (h : t.in_transaction = true) :
    transaction_enter t = Except.error TxError.nested_transaction ∧
    attempt_nested_transaction t = (t, some TxError.nested_transaction) := by
  constructor <;>
    simp [transaction_enter, attempt_nested_transaction, h]

/-- Witness for C9: an active transaction holding two registered
operations rejects nesting and is left unchanged. -/
theorem c9_nested_transaction_rejected_witness :
    transaction_enter ⟨true, 2⟩ = Except.error TxError.nested_transaction ∧
    attempt_nested_transaction ⟨true, 2⟩ =
      (⟨true, 2⟩, some TxError.nested_transaction) :=
  c9_nested_transaction_rejected ⟨true, 2⟩ rfl

/-- Counterexample to C10 as stated: with the graph store holding a
memory of importance 5 and equal bounds 3, 3, the call raises
`AttributeError` — not the claimed division-by-zero error — because its
first step dispatches `get_memories_by_importance`, which `GraphStore`
never defines; and with bounds 1 < 3 the call again raises
`AttributeError` instead of returning a scored result list. -/
theorem c10_counterexample :
    retrieve_by_importance [⟨1, 5⟩] 3 3 10 =
      Except.error RetrievalPyErr.attribute_error ∧
    retrieve_by_importance [⟨1, 5⟩] 3 3 10 ≠
      Except.error RetrievalPyErr.zeroDivisionError ∧
    retrieve_by_importance [⟨1, 5⟩] 1 3 10 =
      Except.error RetrievalPyErr.attribute_error := by
  have hc : "get_memories_by_importance" ∉ graph_store_method_names := by decide
  refine ⟨?_, ?_, ?_⟩ <;>
    simp [retrieve_by_importance, graph_store_get_memories_by_importance, hc]

/-- C10 (amended): every call to `retrieve_by_importance` raises
`AttributeError` at its first step — `GraphStore` defines no
`get_memories_by_importance` — before the scoring loop runs, whatever
the bounds; the division by `max - min` in the scoring loop is
unguarded, so that loop, were it reached on at least one memory with
`min = max`, raises the division-by-zero error, and it is safe exactly
in the regime `min < max`. -/
theorem c10_importance_zero_range (memories : List ImpMem)
    (min_importance max_importance : ℤ) (top_k : ℕ) :
    (retrieve_by_importance memories min_importance max_importance top_k =
      Except.error RetrievalPyErr.attribute_error) ∧
    (min_importance = max_importance → memories ≠ [] →
      importance_scores memories min_importance max_importance =
        Except.error RetrievalPyErr.zeroDivisionError) ∧
    (min_importance < max_importance →
      ∃ l, importance_scores memories min_importance max_importance =
        Except.ok l) := by
  refine ⟨?_, ?_, ?_⟩
  · have hc : "get_memories_by_importance" ∉ graph_store_method_names := by
      decide
    simp [retrieve_by_importance, graph_store_get_memories_by_importance, hc]
  · intro heq hne
    cases memories with
    | nil => exact absurd rfl hne
    | cons m rest =>
      simp [importance_scores, heq]
  · intro hlt
    have hr : ¬ max_importance - min_importance = 0 := by omega
    induction memories with
    | nil => exact ⟨[], rfl⟩
    | cons m rest ih =>
      rcases ih with ⟨l, hl⟩
      refine ⟨(m.id, ((m.importance - min_importance : ℤ) : ℚ) /
        ((max_importance - min_importance : ℤ) : ℚ)) :: l, ?_⟩
      simp [importance_scores, hr, hl]

/-- Witness for C10: the full call with one stored memory and bounds
3, 3 raises `AttributeError`; the scoring loop alone on that memory
raises the division error at equal bounds 3, 3 and returns a scored
list at bounds 1, 3. -/
theorem c10_importance_zero_range_witness :
    retrieve_by_importance [⟨1, 5⟩] 3 3 10 =
      Except.error RetrievalPyErr.attribute_error ∧
    importance_scores [⟨1, 5⟩] 3 3 =
      Except.error RetrievalPyErr.zeroDivisionError ∧
    ∃ l, importance_scores [⟨1, 5⟩] 1 3 = Except.ok l :=
  ⟨(c10_importance_zero_range [⟨1, 5⟩] 3 3 10).1,
   (c10_importance_zero_range [⟨1, 5⟩] 3 3 10).2.1 rfl (List.cons_ne_nil _ _),
   (c10_importance_zero_range [⟨1, 5⟩] 1 3 10).2.2 (by norm_num)⟩

end AgentMemory
